import Mathlib

/-!
Verification development for the pdfautomation repository.

The repository is a batch PDF extraction pipeline: it walks a folder of
PDF documents, rasterizes each page, runs OCR, searches the recognized
text for a document-type specific identifier next to an anchor keyword,
writes each matched page to a collision-free file name, and appends an
audit log entry plus a report record per page.

This file gives a shallow embedding of the text-processing and
orchestration code of src/app_tkinter.py and src/app_api.py.  Python
strings are modeled as lists of characters; Python exceptions are
modeled with an explicit error type; the filesystem visible to the
unique-name generator is modeled as the list of paths that exist;
logging is modeled as the list of entries appended, each entry being
the list of lines written by one logging call.
-/

/-- A Python string, modeled as a list of characters. -/
abbrev Str := List Char

/-- Shorthand turning a Lean string literal into the list-of-characters model. -/
def str (s : String) : Str := s.data

/-- Python whitespace class (the regex class backslash-s over ASCII input). -/
def isPySpace (c : Char) : Bool :=
  c == ' ' || c == '\t' || c == '\n' || c == '\r' || c == '\x0b' || c == '\x0c'

/-- The regex character class of ASCII letters and digits, [A-Za-z0-9]. -/
def isAsciiAlnum (c : Char) : Bool :=
  (decide ('A' ≤ c) && decide (c ≤ 'Z')) ||
  (decide ('a' ≤ c) && decide (c ≤ 'z')) ||
  (decide ('0' ≤ c) && decide (c ≤ '9'))

/-- Python str.lower on ASCII text: lower-case every character. -/
def pyToLower (s : Str) : Str := s.map Char.toLower

/-- Python substring test, needle in hay, on strings. -/
def containsSub (needle : Str) : Str → Bool
  | [] => decide (needle = [])
  | c :: t => needle.isPrefixOf (c :: t) || containsSub needle t

/-- Python str.find: index of the first occurrence of needle in hay, if any. -/
def findSub (hay needle : Str) : Option Nat :=
  match hay with
  | [] => if needle = [] then some 0 else none
  | _ :: t =>
    if needle.isPrefixOf hay then some 0
    else (findSub t needle).map (· + 1)

/-- Python str.strip(chars): drop characters of the given set from both ends. -/
def pyStrip (chars : Str) (s : Str) : Str :=
  ((s.dropWhile (fun c => chars.contains c)).reverse.dropWhile
    (fun c => chars.contains c)).reverse

/-- The strip set used by the extractors after the anchor keyword. -/
def stripSet : Str := str " .:_-"

/-- Removal of all whitespace, the regex substitution of backslash-s-plus by the empty string. -/
def removeWs (s : Str) : Str := s.filter (fun c => !isPySpace c)

/-- Python str.replace applied to one space character: drop every space. -/
def replaceSpace (s : Str) : Str := s.filter (fun c => c != ' ')

/-- The regex match of the pattern caret, group of [A-Za-z0-9 or whitespace] one-or-more,
applied at the start of a string: the longest such prefix when it is nonempty. -/
def reMatchAlnumSpace (s : Str) : Option Str :=
  let t := s.takeWhile (fun c => isAsciiAlnum c || isPySpace c)
  if t = [] then none else some t

/-- Python str.splitlines over the line terminators newline, carriage return,
and the carriage-return newline pair.  A trailing terminator opens no empty line. -/
def splitlinesAux : Str → Str → List Str
  | [], acc => if acc = [] then [] else [acc.reverse]
  | '\r' :: '\n' :: rest, acc => acc.reverse :: splitlinesAux rest []
  | '\n' :: rest, acc => acc.reverse :: splitlinesAux rest []
  | '\r' :: rest, acc => acc.reverse :: splitlinesAux rest []
  | c :: rest, acc => splitlinesAux rest (c :: acc)

/-- Python str.splitlines. -/
def pySplitlines (s : Str) : List Str := splitlinesAux s []

/-- Decimal digits, fuel-driven: the value shrinks by a factor of ten each
step, so fuel one more than the value is always sufficient. -/
def natToDigitsAux : Nat → Nat → Str
  | 0, _ => []
  | fuel + 1, n =>
    if n < 10 then [Nat.digitChar n]
    else natToDigitsAux fuel (n / 10) ++ [Nat.digitChar (n % 10)]

/-- Decimal digits of a natural number, most significant first, as written by a
Python fstring. -/
def natToDigits (n : Nat) : Str := natToDigitsAux (n + 1) n

/-- Numeric value of a decimal digit character. -/
def digitVal (c : Char) : Nat := c.toNat - 48

/-- Reading a decimal digit string back into a natural number. -/
def parseDec (l : Str) : Nat := l.foldl (fun a c => a * 10 + digitVal c) 0

theorem digitVal_digitChar (d : Nat) (h : d < 10) :
    digitVal (Nat.digitChar d) = d := by
  interval_cases d <;> rfl

theorem parseDec_append_digit (xs : Str) (c : Char) :
    parseDec (xs ++ [c]) = parseDec xs * 10 + digitVal c := by
  simp [parseDec, List.foldl_append]

theorem parseDec_natToDigitsAux :
    ∀ fuel n, n < fuel → parseDec (natToDigitsAux fuel n) = n := by
  intro fuel
  induction fuel with
  | zero => intro n h; omega
  | succ fuel ih =>
    intro n h
    rw [natToDigitsAux]
    by_cases h10 : n < 10
    · simp only [h10, if_pos]
      simp [parseDec, digitVal_digitChar n h10]
    · rw [if_neg h10]
      have hlt : n / 10 < fuel := by
        have := Nat.div_lt_self (show 0 < n by omega) (show 1 < 10 by omega)
        omega
      rw [parseDec_append_digit, ih (n / 10) hlt,
        digitVal_digitChar (n % 10) (Nat.mod_lt n (by omega))]
      omega

theorem parseDec_natToDigits (n : Nat) : parseDec (natToDigits n) = n :=
  parseDec_natToDigitsAux (n + 1) n (by omega)

theorem natToDigits_injective : Function.Injective natToDigits := by
  intro a b h
  have := congrArg parseDec h
  simpa [parseDec_natToDigits] using this

theorem natToDigits_ne_nil (n : Nat) : natToDigits n ≠ [] := by
  show natToDigitsAux (n + 1) n ≠ []
  rw [natToDigitsAux]
  by_cases h : n < 10 <;> simp [h]

/-! ## Page extractors of src/app_tkinter.py

Each extractor in the source receives a page image, invokes an OCR engine
on it, and then processes the recognized text.  The OCR engines are
external collaborators; the embedding therefore starts from the OCR text
and models the text processing that follows the OCR call.
-/

/-- Scan of the lines of a page: the first line on which the per-line
extraction returns a value wins, mirroring a for loop with an early return. -/
def scanLines (f : Str → Option Str) : List Str → Option Str
  | [] => none
  | l :: ls =>
    match f l with
    | some v => some v
    | none => scanLines f ls

/-- The processing of extract_id_lien after its anchor: match the leading run
of letters, digits and whitespace of the stripped remainder, drop the
whitespace, and return the result when it is nonempty. -/
def afterAnchorLien (after : Str) : Option Str :=
  match reMatchAlnumSpace after with
  | some g =>
    let cleaned := removeWs g
    if cleaned = [] then none else some cleaned
  | none => none

/-- One line of extract_id_lien, src/app_tkinter.py lines 249 to 277: look
for the anchor case no, or else caseno, case-insensitively; on a hit, the
text after the anchor is stripped and processed; a line whose hit yields
nothing falls through to the next line. -/
def lienLine (line : Str) : Option Str :=
  let ll := pyToLower line
  if containsSub (str "case no") ll then
    afterAnchorLien (pyStrip stripSet
      (line.drop ((findSub ll (str "case no")).getD 0 + (str "case no").length)))
  else if containsSub (str "caseno") ll then
    afterAnchorLien (pyStrip stripSet
      (line.drop ((findSub ll (str "caseno")).getD 0 + (str "caseno").length)))
  else none

/-- extract_id_lien of src/app_tkinter.py, lines 238 to 284, applied to the
OCR text of the page. -/
def extract_id_lien (text : Str) : Option Str :=
  scanLines lienLine (pySplitlines text)

/-- One line of extract_id_judgement: on the first line containing the anchor
case number, return the stripped remainder with spaces removed, with no
further validation; the returned value may be empty. -/
def judgementLine (line : Str) : Option Str :=
  let ll := pyToLower line
  if containsSub (str "case number") ll then
    let idx := (findSub ll (str "case number")).getD 0
    some (replaceSpace (pyStrip stripSet (line.drop (idx + (str "case number").length))))
  else none

/-- extract_id_judgement of src/app_tkinter.py, lines 292 to 322, applied to
the OCR text of the page. -/
def extract_id_judgement (text : Str) : Option Str :=
  scanLines judgementLine (pySplitlines text)

/-! ## Date pattern search

The date extractors run a fixed list of regular expressions of the shape
word-boundary, digit runs separated by a separator character, word-boundary.
The matcher below implements these patterns with the greedy,
backtracking semantics of the regex engine. -/

/-- Python regex word character over ASCII input. -/
def isWordChar (c : Char) : Bool := c.isAlphanum || c == '_'

/-- A segment of a date pattern: a digit run whose allowed lengths are tried
greedily in the given order, a literal separator, or a trailing word boundary. -/
inductive DateSeg
  | digits (choices : List Nat)
  | sep (c : Char)
  | bnd

/-- Matching a list of pattern segments at the start of a string, returning the
matched text and the rest.  Digit runs try their allowed lengths in order and
backtrack on failure of the remaining segments.  The first argument is fuel;
every recursive call consumes one segment, so fuel equal to the segment count
is always enough, and the search wrapper below supplies it. -/
def matchSegs : Nat → List DateSeg → Str → Option (Str × Str)
  | 0, _, _ => none
  | _ + 1, [], s => some ([], s)
  | fuel + 1, DateSeg.sep c :: rest, s =>
    match s with
    | [] => none
    | d :: t => if d == c then (matchSegs fuel rest t).map (fun p => (c :: p.1, p.2)) else none
  | fuel + 1, DateSeg.bnd :: rest, s =>
    match s with
    | [] => matchSegs fuel rest []
    | c :: _ => if isWordChar c then none else matchSegs fuel rest s
  | fuel + 1, DateSeg.digits choices :: rest, s =>
    (choices.map (fun n =>
      let pre := s.take n
      if pre.length == n && pre.all (fun c => c.isDigit) then
        (matchSegs fuel rest (s.drop n)).map (fun p => (pre ++ p.1, p.2))
      else none)).findSome? id

/-- Scanning a string position by position, as the regex search does: at each
position whose left context is a word boundary, attempt the pattern; the first
successful position wins. -/
def searchSegs (segs : List DateSeg) : Option Char → Str → Option Str
  | prev, s =>
    let attempt :=
      if (match prev with | none => true | some p => !isWordChar p) then
        (matchSegs (segs.length + 1) segs s).map (fun p => p.1)
      else none
    match attempt with
    | some m => some m
    | none =>
      match s with
      | [] => none
      | c :: t => searchSegs segs (some c) t

/-- Regex search of a date pattern in a line. -/
def reSearchDate (segs : List DateSeg) (line : Str) : Option Str :=
  searchSegs segs none line

/-- The five date patterns of the source, in declaration order: day and month
as one or two digits and a four digit year with slash, dash or dot separators,
then the year-first dash and slash forms. -/
def datePatterns : List (List DateSeg) :=
  [ [DateSeg.digits [2, 1], DateSeg.sep '/', DateSeg.digits [2, 1], DateSeg.sep '/',
     DateSeg.digits [4], DateSeg.bnd]
  , [DateSeg.digits [2, 1], DateSeg.sep '-', DateSeg.digits [2, 1], DateSeg.sep '-',
     DateSeg.digits [4], DateSeg.bnd]
  , [DateSeg.digits [2, 1], DateSeg.sep '.', DateSeg.digits [2, 1], DateSeg.sep '.',
     DateSeg.digits [4], DateSeg.bnd]
  , [DateSeg.digits [4], DateSeg.sep '-', DateSeg.digits [2, 1], DateSeg.sep '-',
     DateSeg.digits [2, 1], DateSeg.bnd]
  , [DateSeg.digits [4], DateSeg.sep '/', DateSeg.digits [2, 1], DateSeg.sep '/',
     DateSeg.digits [2, 1], DateSeg.bnd] ]

/-- The date loop body of the extractors: the first pattern in declaration
order that has a search hit in the line provides the date. -/
def dateSearchAll (line : Str) : Option Str :=
  datePatterns.findSome? (fun segs => reSearchDate segs line)

/-- The case-number part of one line of extract_md_judgements_cava: anchor
case number first, else anchor case no; the stripped remainder with spaces
removed is taken without validation. -/
def mdCavaCase (line ll : Str) : Option Str :=
  if containsSub (str "case number") ll then
    let idx := (findSub ll (str "case number")).getD 0
    some (replaceSpace (pyStrip stripSet (line.drop (idx + (str "case number").length))))
  else if containsSub (str "case no") ll then
    let idx := (findSub ll (str "case no")).getD 0
    some (replaceSpace (pyStrip stripSet (line.drop (idx + (str "case no").length))))
  else none

/-- The line loop of extract_md_judgements_cava: the case number is taken from
the first line carrying an anchor; the date is searched, independently, on the
first line that contains the two letters of the word on and on which one of
the five date patterns matches. -/
def mdCavaLoop : List Str → Option Str → Option Str → Option Str × Option Str
  | [], cn, df => (cn, df)
  | line :: rest, cn, df =>
    let ll := pyToLower line
    let cn' :=
      match cn with
      | some _ => cn
      | none => mdCavaCase line ll
    let df' :=
      match df with
      | some _ => df
      | none => if containsSub (str "on") ll then dateSearchAll line else none
    mdCavaLoop rest cn' df'

/-- extract_md_judgements_cava of src/app_tkinter.py, lines 328 to 373, applied
to the OCR text of the page: returns the case number and the found date. -/
def extract_md_judgements_cava (text : Str) : Option Str × Option Str :=
  mdCavaLoop (pySplitlines text) none none

/-! ## Python exceptions

Fallible code is embedded with an explicit error type.  Only the error
kinds that the modeled code can raise are distinguished. -/

/-- The Python exception kinds relevant to the modeled code. -/
inductive PyErr
  | typeError
  | valueError
  | nameError
  | indexError
  | cudaOom
deriving DecidableEq

/-- log_exception of src/app_tkinter.py, lines 118 to 121, called with
log_file_path None: open of a None path raises TypeError before anything is
written, so the call itself fails. -/
def logExceptionNonePath : Except PyErr Unit := Except.error PyErr.typeError

/-- Evaluation of the Python expression x in None: None is not a container,
so the membership test raises TypeError whatever x is. -/
def pyInNone : Except PyErr Bool := Except.error PyErr.typeError

/-- Python list.index: position of the first occurrence, ValueError when the
element does not occur. -/
def pyListIndex (l : List Str) (x : Str) : Except PyErr Nat :=
  match l.findIdx? (fun y => y == x) with
  | some i => Except.ok i
  | none => Except.error PyErr.valueError

/-! ## extract_id_dismissal, src/app_tkinter.py lines 195 to 225

The function resizes the page image, runs the module-level EasyOCR reader
once, joins the recognized line list with newlines, and takes the first
match of the pattern File, optional whitespace, No, an optional separator
of colon, dot or semicolon, optional whitespace, then a run of letters,
digits, dots, commas and dashes, case-insensitively; commas and dots are
then removed from the captured run.  If anything raises, the handler calls
log_exception with a None log path, which itself raises TypeError.  To
settle the retry claim, the run also records which OCR reader invocations
were made. -/

/-- The character class captured after the File No anchor. -/
def isFileNoIdChar (c : Char) : Bool :=
  isAsciiAlnum c || c == '.' || c == ',' || c == '-'

/-- Case-insensitive literal match at the start of a string; the literal is
given in lower case.  Returns the rest on success. -/
def ciEat (lit : Str) (s : Str) : Option Str :=
  if pyToLower (s.take lit.length) = lit then some (s.drop lit.length) else none

/-- After the optional separator position: optional whitespace, then the
captured character-class run, which must be nonempty. -/
def fileNoTail (s : Str) : Option Str :=
  let s2 := s.dropWhile isPySpace
  let run := s2.takeWhile isFileNoIdChar
  if run = [] then none else some run

/-- Attempt of the File No pattern at one position, with the backtracking of
the optional separator: a separator character is consumed greedily, and on
failure of the rest the zero-width alternative is tried. -/
def tryFileNoAt (s : Str) : Option Str :=
  match ciEat (str "file") s with
  | none => none
  | some s1 =>
    match ciEat (str "no") (s1.dropWhile isPySpace) with
    | none => none
    | some s3 =>
      match s3 with
      | [] => fileNoTail []
      | c :: rest =>
        if c == ':' || c == '.' || c == ';' then
          match fileNoTail rest with
          | some g => some g
          | none => fileNoTail s3
        else fileNoTail s3

/-- First match of the File No pattern, scanning positions left to right. -/
def reFindFirstFileNo : Str → Option Str
  | [] => none
  | c :: t =>
    match tryFileNoAt (c :: t) with
    | some g => some g
    | none => reFindFirstFileNo t

/-- Removal of commas and dots from the captured identifier. -/
def cleanId (s : Str) : Str := s.filter (fun c => !(c == '.' || c == ','))

/-- The text-processing part of extract_id_dismissal, applied to the joined
OCR text: first pattern match, cleaned; None when there is no match. -/
def extract_id_dismissal_text (text : Str) : Option Str :=
  (reFindFirstFileNo text).map cleanId

/-- An invocation of the EasyOCR reader.  The module initializes a single
reader with GPU use decided at import time; a CPU-only invocation would
require a second reader, which the source never constructs. -/
inductive OcrCall
  | gpuReader
  | cpuReader
deriving DecidableEq

/-- Observable behavior of one extract_id_dismissal call: the OCR reader
invocations made, in order, and the outcome. -/
structure DismissalRun where
  calls : List OcrCall
  result : Except PyErr (Option Str)

/-- extract_id_dismissal of src/app_tkinter.py, lines 195 to 225, as a
function of the outcome of the single readtext invocation it performs.  On
OCR failure the except handler calls log_exception with a None log path,
which raises TypeError, so the call terminates with that exception. -/
def extract_id_dismissal (ocr : Except PyErr (List Str)) : DismissalRun :=
  { calls := [OcrCall.gpuReader]
  , result :=
      match ocr with
      | Except.ok results =>
        Except.ok (extract_id_dismissal_text (List.intercalate (str "\n") results))
      | Except.error _ =>
        match logExceptionNonePath with
        | Except.ok _ => Except.ok none
        | Except.error e => Except.error e }

/-! ## The three broken judgement extractors

extract_va_judgements_lvnv (lines 379 to 428), extract_va_judgements_cava
(lines 434 to 482) and extract_judgements_mcm (lines 488 to 536) of
src/app_tkinter.py are three identical copies of the same code.  Their line
loop guards the keyword search with the expression case_number in None,
which raises TypeError on its first evaluation, so the whole loop body is
dead code past the guard; with no lines at all, the fall-through
lines.index call raises ValueError on the empty list.  The except handler
then calls log_exception with a None log path, which raises again. -/

/-- The line loop of the three extractors: on a nonempty line list the first
iteration evaluates the guard case_number in None and raises; everything
after the guard is unreachable and therefore not modeled. -/
def vaGuardLoop : List Str → Except PyErr Unit
  | [] => Except.ok ()
  | _ :: _ => pyInNone.map (fun _ => ())

/-- The shared try-block body of the three extractors.  The loop completes
only when the line list is empty; then case_number is still None and the
source evaluates lines.index of the literal Case, then reads the following
line as the case number. -/
def vaBody (text : Str) : Except PyErr (Option Str × Option Str) := do
  let lines := pySplitlines text
  let _ ← vaGuardLoop lines
  let i ← pyListIndex lines (str "Case")
  match lines.get? (i + 1) with
  | some l => pure (some l, none)
  | none => Except.error PyErr.indexError

/-- The shared except handler of the three extractors: log_exception with a
None log path, which itself raises; the fallback return of a None pair is
never reached. -/
def vaWrap (body : Except PyErr (Option Str × Option Str)) :
    Except PyErr (Option Str × Option Str) :=
  match body with
  | Except.ok r => Except.ok r
  | Except.error _ =>
    match logExceptionNonePath with
    | Except.ok _ => Except.ok (none, none)
    | Except.error e => Except.error e

/-- extract_va_judgements_lvnv of src/app_tkinter.py, lines 379 to 428,
applied to the OCR text of the page. -/
def extract_va_judgements_lvnv (text : Str) : Except PyErr (Option Str × Option Str) :=
  vaWrap (vaBody text)

/-- extract_va_judgements_cava of src/app_tkinter.py, lines 434 to 482, an
identical copy of the lvnv variant. -/
def extract_va_judgements_cava (text : Str) : Except PyErr (Option Str × Option Str) :=
  vaWrap (vaBody text)

/-- extract_judgements_mcm of src/app_tkinter.py, lines 488 to 536, an
identical copy of the lvnv variant. -/
def extract_judgements_mcm (text : Str) : Except PyErr (Option Str × Option Str) :=
  vaWrap (vaBody text)

/-! ## get_unique_filename, src/app_tkinter.py lines 879 to 891

The filesystem visible to the generator is modeled as the list of paths
that currently exist.  The while loop checks the candidate names base.ext,
base_copy1.ext, base_copy2.ext and so on, and returns the first one that
does not exist; the loop is embedded with explicit fuel, and one step more
than the number of existing files is always enough, because the candidate
names are pairwise distinct. -/

/-- os.path.join of a directory and a file name. -/
def pyJoin (dir name : Str) : Str := dir ++ str "/" ++ name

/-- The k-th candidate file name tried by the loop: the plain name first,
then the _copy suffixes with increasing decimal counters. -/
def candidate (base ext : Str) (k : Nat) : Str :=
  if k = 0 then base ++ ext else base ++ str "_copy" ++ natToDigits k ++ ext

/-- The while loop of get_unique_filename: starting at candidate index k,
return the joined path of the first candidate that does not exist. -/
def gufLoop (fs : List Str) (dir base ext : Str) : Nat → Nat → Str
  | 0, k => pyJoin dir (candidate base ext k)
  | fuel + 1, k =>
    if pyJoin dir (candidate base ext k) ∈ fs then gufLoop fs dir base ext fuel (k + 1)
    else pyJoin dir (candidate base ext k)

/-- get_unique_filename of src/app_tkinter.py, lines 879 to 891 (the copy in
src/app_api.py, lines 155 to 161, is identical). -/
def get_unique_filename (fs : List Str) (dir base ext : Str) : Str :=
  gufLoop fs dir base ext (fs.length + 1) 0

/-- N successive reservations with the same base name against a directory:
each returned path is written (added to the filesystem) before the next
request, starting from an empty directory.  Returns the list of returned
paths and the final filesystem. -/
def reserveN (dir base ext : Str) : Nat → List Str × List Str
  | 0 => ([], [])
  | n + 1 =>
    let prev := reserveN dir base ext n
    let p := get_unique_filename prev.2 dir base ext
    (prev.1 ++ [p], prev.2 ++ [p])

/-! ## Logging, src/app_tkinter.py lines 98 to 121

The log file is modeled as the list of entries appended; one entry is the
list of lines written by one logging call.  Timestamps are supplied by the
environment and threaded as parameters. -/

/-- Python truthiness of an optional string: None and the empty string are
falsy, everything else truthy. -/
def pyTruthy : Option Str → Bool
  | none => false
  | some s => !s.isEmpty

/-- log_text of src/app_tkinter.py, lines 98 to 108: the entry written for a
processed page, with a header line, then either the found identifier line and
optionally the saved-as line, or the no-identifier line, then a blank line. -/
def logTextEntry (ts name : Str) (pageNum : Nat) (eid : Option Str)
    (finalPath : Option Str) : List Str :=
  (str "[" ++ ts ++ str "] [" ++ name ++ str " - Page " ++ natToDigits pageNum ++ str "]") ::
  (if pyTruthy eid then
    (str "Extracted ID found: " ++ eid.getD []) ::
      (if pyTruthy finalPath then [str "Renamed and saved as: " ++ finalPath.getD []] else [])
   else [str "No ID extracted on this page."]) ++ [[]]

/-- log_exception of src/app_tkinter.py, lines 118 to 121, with a valid log
path: the ERROR entry written, with its header line, the error text lines,
and a blank line. -/
def logErrorEntry (ts context : Str) (errLines : List Str) : List Str :=
  (str "[" ++ ts ++ str "] ERROR in " ++ context ++ str ":") :: errLines ++ [[]]

/-! ## process_pdf, src/app_tkinter.py lines 918 to 1078

The per-page work is driven by events describing the outcomes of the
external collaborators: either the page reaches extraction with some OCR
text, or anything in the per-page try block raises (temporary page write,
rasterization, the OCR engine, the output write), which the per-page
handler turns into one ERROR log entry.  The temporary single-page file is
created and removed inside the try block before the unique name is chosen,
so it does not appear in the visible filesystem.  Report records carry the
four columns appended at lines 1036 to 1041. -/

/-- One report record of process_pdf: identifier or blank, the batch start
time, the written-file creation time or blank, and the source path. -/
structure Rec4 where
  caseId : Str
  stamp : Str
  mdate : Str
  src : Str
deriving DecidableEq

/-- Per-document configuration of one process_pdf call.  The ts field is the
timestamp the logging calls write; mdate is the creation time the filesystem
reports for a newly written page file. -/
structure PdfCfg where
  idKeyword : Str
  pdfName : Str
  pdfPath : Str
  outputDir : Str
  startTime : Str
  ts : Str
  mdate : Str
  index : Nat
  totalFiles : Nat

/-- The state threaded through a batch run: existing output paths, log
entries, report records, and the values passed to the progress callback. -/
structure PdfSt where
  fs : List Str
  log : List (List Str)
  recs : List Rec4
  prog : List ℚ
deriving DecidableEq

/-- Outcome of the external collaborators for one page. -/
inductive PageEvent
  | pageFail (msg : Str)
  | ocrText (text : Str)

/-- The OCR-engine dispatch of process_pdf, lines 977 to 990: a keyword
containing fileno selects the dismissal extractor and its notice label, a
keyword containing case number selects the judgement extractor with an empty
label, anything else selects the lien extractor. -/
def dispatchExtract (kw text : Str) : Option Str × Str :=
  if containsSub (str "fileno") (pyToLower kw) then
    (extract_id_dismissal_text text, str "Notice Of Dismissal")
  else if containsSub (str "case number") (pyToLower kw) then
    (extract_id_judgement text, str "")
  else
    (extract_id_lien text, str "")

/-- The output base name of process_pdf, lines 1000 to 1005: identifier and
label joined by an underscore for the dismissal and judgement profiles, the
bare identifier otherwise. -/
def baseFilename (kw eid label : Str) : Str :=
  if containsSub (str "fileno") (pyToLower kw) then eid ++ str "_" ++ label
  else if containsSub (str "case number") (pyToLower kw) then eid ++ str "_" ++ label
  else eid

/-- The progress value computed after each page at line 1065: the zero-based
document index plus the completed fraction of the current document, over the
number of documents, times one hundred. -/
def progressValue (index ip1 totalPages totalFiles : Nat) : ℚ :=
  (((index : ℚ) + (ip1 : ℚ) / (totalPages : ℚ)) / (totalFiles : ℚ)) * 100

/-- One iteration of the page loop of process_pdf: the try block on the page
event, then the progress callback invocation, which runs in every case. -/
def pdfPageStep (cfg : PdfCfg) (totalPages i : Nat) (ev : PageEvent) (st : PdfSt) : PdfSt :=
  let st2 :=
    match ev with
    | PageEvent.pageFail msg =>
      { st with log := st.log ++
          [logErrorEntry cfg.ts (str "process_pdf")
            [str "file-level error in " ++ cfg.pdfName ++ str ":", msg]] }
    | PageEvent.ocrText text =>
      let ex := dispatchExtract cfg.idKeyword text
      if pyTruthy ex.1 then
        let eid := ex.1.getD []
        let fp := get_unique_filename st.fs cfg.outputDir
          (baseFilename cfg.idKeyword eid ex.2) (str ".pdf")
        { st with
            fs := st.fs ++ [fp]
            log := st.log ++ [logTextEntry cfg.ts cfg.pdfName (i + 1) ex.1 (some fp)]
            recs := st.recs ++ [Rec4.mk eid cfg.startTime cfg.mdate cfg.pdfPath] }
      else
        { st with
            log := st.log ++ [logTextEntry cfg.ts cfg.pdfName (i + 1) none none]
            recs := st.recs ++ [Rec4.mk [] cfg.startTime (str "") cfg.pdfPath] }
  { st2 with prog := st2.prog ++ [progressValue cfg.index (i + 1) totalPages cfg.totalFiles] }

/-- The page loop of process_pdf over the enumerated pages. -/
def processPdfLoop (cfg : PdfCfg) (totalPages : Nat) : Nat → List PageEvent → PdfSt → PdfSt
  | _, [], st => st
  | i, ev :: rest, st => processPdfLoop cfg totalPages (i + 1) rest (pdfPageStep cfg totalPages i ev st)

/-- Outcome of opening one document: the PDF cannot be opened at all, or it
opens with the given per-page events. -/
inductive DocEvent
  | openFail (msg : Str)
  | opened (pages : List PageEvent)

/-- process_pdf of src/app_tkinter.py, lines 918 to 1078: a document that
fails to open is handled by the outer except, which appends one ERROR entry
and returns with no records; an opened document runs the page loop. -/
def process_pdf (cfg : PdfCfg) (doc : DocEvent) (st : PdfSt) : PdfSt :=
  match doc with
  | DocEvent.openFail msg =>
    { st with log := st.log ++ [logErrorEntry cfg.ts (str "process_pdf") [msg]] }
  | DocEvent.opened pages => processPdfLoop cfg pages.length 0 pages st

/-- One document of a batch with its per-document environment data. -/
structure DocJob where
  pdfName : Str
  pdfPath : Str
  outputDir : Str
  mdate : Str
  doc : DocEvent

/-- Batch-wide configuration of the worker of run_type, src/app_tkinter.py
lines 3182 to 3221. -/
structure BatchCfg where
  idKeyword : Str
  startTime : Str
  ts : Str
  totalFiles : Nat

/-- The per-document configuration the worker passes to process_pdf. -/
def jobCfg (b : BatchCfg) (idx : Nat) (j : DocJob) : PdfCfg :=
  { idKeyword := b.idKeyword, pdfName := j.pdfName, pdfPath := j.pdfPath
  , outputDir := j.outputDir, startTime := b.startTime, ts := b.ts
  , mdate := j.mdate, index := idx, totalFiles := b.totalFiles }

/-- The document loop of the worker of run_type, lines 3204 to 3207:
process_pdf on each document in list order, accumulating records and log. -/
def runBatchAux (b : BatchCfg) : Nat → List DocJob → PdfSt → PdfSt
  | _, [], st => st
  | idx, j :: rest, st =>
    runBatchAux b (idx + 1) rest (process_pdf (jobCfg b idx j) j.doc st)

/-- Rendering of a caught exception by str(e); the precise interpreter text
is environment dependent and abstracted by kind. -/
def pyErrStr : PyErr → Str
  | PyErr.typeError => str "TypeError"
  | PyErr.valueError => str "ValueError"
  | PyErr.nameError => str "NameError"
  | PyErr.indexError => str "IndexError"
  | PyErr.cudaOom => str "CUDA out of memory"

/-! ## process_va_judgements_lvnv, src/app_tkinter.py lines 1157 to 1224

The page loop of the process functions for the three broken judgement
profiles, driven by the result of the extractor call; its report records
carry five columns (lines 1201 to 1207). -/

/-- One report record of the five-column process functions. -/
structure Rec5 where
  caseId : Str
  dateFound : Str
  stamp : Str
  mdate : Str
  src : Str
deriving DecidableEq

/-- State threaded through a five-column process function. -/
structure VaSt where
  fs : List Str
  log : List (List Str)
  recs : List Rec5
  prog : List ℚ
deriving DecidableEq

/-- One iteration of the page loop of process_va_judgements_lvnv, as a
function of the extractor result: an exception from the extractor reaches
the per-page handler, which appends one ERROR entry; otherwise a truthy case
number yields a written file, a log entry and a record, and a falsy one a
log entry and a blank record.  The document keyword field of the
configuration is unused by these profiles. -/
def vaPageStep (cfg : PdfCfg) (totalPages i : Nat)
    (extRes : Except PyErr (Option Str × Option Str)) (st : VaSt) : VaSt :=
  let st2 :=
    match extRes with
    | Except.error e =>
      { st with log := st.log ++
          [logErrorEntry cfg.ts (str "process_va_judgements_lvnv")
            [str "file-level error in " ++ cfg.pdfName ++ str " page " ++
              natToDigits (i + 1) ++ str ":", pyErrStr e]] }
    | Except.ok pr =>
      if pyTruthy pr.1 then
        let c := pr.1.getD []
        let fp := get_unique_filename st.fs cfg.outputDir c (str ".pdf")
        { st with
            fs := st.fs ++ [fp]
            log := st.log ++ [logTextEntry cfg.ts cfg.pdfName (i + 1) pr.1 (some fp)]
            recs := st.recs ++
              [Rec5.mk c (if pyTruthy pr.2 then pr.2.getD [] else [])
                cfg.startTime cfg.mdate cfg.pdfPath] }
      else
        { st with
            log := st.log ++ [logTextEntry cfg.ts cfg.pdfName (i + 1) none none]
            recs := st.recs ++
              [Rec5.mk [] (if pyTruthy pr.2 then pr.2.getD [] else [])
                cfg.startTime (str "") cfg.pdfPath] }
  { st2 with prog := st2.prog ++ [progressValue cfg.index (i + 1) totalPages cfg.totalFiles] }

/-! ## process_pdf of src/app_api.py, lines 164 to 234

The API variant of process_pdf assigns the local variables extracted_id and
notice_label only inside the branch taken when the keyword contains fileno;
there is no other branch, so for any other keyword the later reference to
extracted_id raises NameError (as UnboundLocalError).  The per-page handler
at lines 222 and 223 turns any exception into one ERROR log entry.  The API
variant computes no progress values. -/

namespace AppApi

/-- State of the API process_pdf: existing output paths, log entries and
report records. -/
structure ApiSt where
  fs : List Str
  log : List (List Str)
  recs : List Rec4
deriving DecidableEq

/-- The per-page try body once the page reaches the extraction step with OCR
text.  The binding state of the local variable extracted_id is modeled
explicitly: it is assigned only when the keyword contains fileno, and its
evaluation while unassigned raises NameError. -/
def pageBody (cfg : PdfCfg) (i : Nat) (text : Str) (st : ApiSt) : Except PyErr ApiSt :=
  let extracted_id : Option (Option Str) :=
    if containsSub (str "fileno") (pyToLower cfg.idKeyword) then
      some (extract_id_dismissal_text text)
    else none
  match extracted_id with
  | none => Except.error PyErr.nameError
  | some eid =>
    if pyTruthy eid then
      let e := eid.getD []
      let fp := get_unique_filename st.fs cfg.outputDir
        (baseFilename cfg.idKeyword e (str "Notice Of Dismissal")) (str ".pdf")
      Except.ok { st with
        fs := st.fs ++ [fp]
        log := st.log ++ [logTextEntry cfg.ts cfg.pdfName (i + 1) eid (some fp)]
        recs := st.recs ++ [Rec4.mk e cfg.startTime cfg.mdate cfg.pdfPath] }
    else
      Except.ok { st with
        log := st.log ++ [logTextEntry cfg.ts cfg.pdfName (i + 1) none none]
        recs := st.recs ++ [Rec4.mk [] cfg.startTime (str "") cfg.pdfPath] }

/-- One iteration of the page loop of the API process_pdf: collaborator
failures and body exceptions reach the per-page handler, which appends one
ERROR entry and nothing else. -/
def pageStep (cfg : PdfCfg) (i : Nat) (ev : PageEvent) (st : ApiSt) : ApiSt :=
  match ev with
  | PageEvent.pageFail msg =>
    { st with log := st.log ++
        [logErrorEntry cfg.ts (str "process_pdf")
          [str "file-level error in " ++ cfg.pdfName ++ str ":", msg]] }
  | PageEvent.ocrText text =>
    match pageBody cfg i text st with
    | Except.ok st2 => st2
    | Except.error e =>
      { st with log := st.log ++
          [logErrorEntry cfg.ts (str "process_pdf")
            [str "file-level error in " ++ cfg.pdfName ++ str ":", pyErrStr e]] }

end AppApi

/-! ## Shared sample inputs used by concrete instantiations. -/

/-- A sample per-document configuration with a lien-profile keyword. -/
def sampleCfg : PdfCfg :=
  { idKeyword := str "caseno", pdfName := str "doc1", pdfPath := str "in/doc1.pdf"
  , outputDir := str "out/doc1", startTime := str "2025-01-01 00:00:00"
  , ts := str "2025-01-01 00:00:01", mdate := str "2025-01-01 00:00:02"
  , index := 0, totalFiles := 1 }

/-- The empty batch state. -/
def emptySt : PdfSt := { fs := [], log := [], recs := [], prog := [] }

/-! ## Helper lemmas about the line scan and the lien validation. -/

theorem scanLines_eq_some (f : Str → Option Str) (ls : List Str) (v : Str)
    (h : scanLines f ls = some v) : ∃ l ∈ ls, f l = some v := by
  induction ls with
  | nil => simp [scanLines] at h
  | cons l ls ih =>
    rw [scanLines] at h
    cases hf : f l with
    | some w =>
      simp only [hf] at h
      exact ⟨l, by simp, by rw [hf, h]⟩
    | none =>
      simp only [hf] at h
      obtain ⟨l2, hl2, hfl⟩ := ih h
      exact ⟨l2, by simp [hl2], hfl⟩

theorem scanLines_eq_none (f : Str → Option Str) (ls : List Str)
    (h : ∀ l ∈ ls, f l = none) : scanLines f ls = none := by
  induction ls with
  | nil => rfl
  | cons l ls ih =>
    rw [scanLines]
    simp only [h l (by simp)]
    exact ih fun l2 hl2 => h l2 (by simp [hl2])

theorem removeWs_all_alnum (after g : Str) (hg : reMatchAlnumSpace after = some g) :
    ∀ c ∈ removeWs g, isAsciiAlnum c = true := by
  intro c hc
  unfold removeWs at hc
  rw [List.mem_filter] at hc
  obtain ⟨hcg, hcs⟩ := hc
  unfold reMatchAlnumSpace at hg
  simp only at hg
  split at hg
  · simp at hg
  · have hgt : g = after.takeWhile (fun c => isAsciiAlnum c || isPySpace c) :=
      (Option.some_injective _ hg).symm
    rw [hgt] at hcg
    have := List.mem_takeWhile_imp hcg
    simp only [Bool.or_eq_true] at this
    rcases this with h1 | h2
    · exact h1
    · rw [h2] at hcs
      simp at hcs

theorem afterAnchorLien_valid (after s : Str) (h : afterAnchorLien after = some s) :
    s ≠ [] ∧ ∀ c ∈ s, isAsciiAlnum c = true := by
  unfold afterAnchorLien at h
  split at h
  · rename_i g hg
    simp only at h
    split at h
    · simp at h
    · rename_i hne
      have hs : removeWs g = s := Option.some_injective _ h
      constructor
      · rw [← hs]; exact hne
      · intro c hc
        rw [← hs] at hc
        exact removeWs_all_alnum after g hg c hc
  · simp at h

theorem lienLine_valid (line s : Str) (h : lienLine line = some s) :
    s ≠ [] ∧ ∀ c ∈ s, isAsciiAlnum c = true := by
  unfold lienLine at h
  simp only at h
  split at h
  · exact afterAnchorLien_valid _ s h
  · split at h
    · exact afterAnchorLien_valid _ s h
    · simp at h

/-! ## Claim C1 -/

/-- Claim C1, counterexample: extract_id_judgement succeeds on the page text
Case Number: AB with the identifier AB, which is shorter than three
characters and contains no digit, so a successful extraction does not
satisfy the claimed minimum-length and digit-presence rule. -/
theorem extract_id_judgement_no_validation_cex :
    extract_id_judgement (str "Case Number: AB") = some (str "AB")
    ∧ ¬((str "AB").length ≥ 3)
    ∧ ¬(∃ c ∈ (str "AB"), c.isDigit = true) := by
  refine ⟨by decide, by decide, by decide⟩

/-- Claim C1, amended: a non-null identifier returned by extract_id_lien is
nonempty and consists of ASCII letters and digits only, but no minimum
length or digit presence is enforced; extract_id_judgement validates
nothing beyond removing spaces, so its non-null results are merely
space-free and may be empty, short, or digit-free. -/
theorem extract_id_validation_amended (text s : Str) :
    (extract_id_lien text = some s → s ≠ [] ∧ ∀ c ∈ s, isAsciiAlnum c = true)
    ∧ (extract_id_judgement text = some s → ∀ c ∈ s, c ≠ ' ') := by
  constructor
  · intro h
    obtain ⟨l, _, hl⟩ := scanLines_eq_some _ _ _ h
    exact lienLine_valid l s hl
  · intro h
    obtain ⟨l, _, hl⟩ := scanLines_eq_some _ _ _ h
    unfold judgementLine at hl
    simp only at hl
    split at hl
    · have hs := Option.some_injective _ hl
      intro c hc
      rw [← hs] at hc
      unfold replaceSpace at hc
      rw [List.mem_filter] at hc
      intro hceq
      rw [hceq] at hc
      simp at hc
    · simp at hl

/-- Claim C1, witness: the amended statement applied to concrete pages. -/
theorem extract_id_validation_amended_witness :
    ((str "A1B2") ≠ [] ∧ ∀ c ∈ (str "A1B2"), isAsciiAlnum c = true)
    ∧ (∀ c ∈ (str "AB"), c ≠ ' ') :=
  ⟨(extract_id_validation_amended (str "Case No: A1 B2") (str "A1B2")).1 (by decide),
   (extract_id_validation_amended (str "Case Number: AB") (str "AB")).2 (by decide)⟩

/-! ## Claim C6 -/

/-- Claim C6: on the OCR text of the two lines Case Number: XYZ7890 and
Filed on 04/25/2025, the case-number and date extractor returns the
identifier XYZ7890 and the date 04/25/2025, and the plain judgement
extractor returns the same identifier. -/
theorem extract_md_judgements_cava_scenario :
    extract_md_judgements_cava (str "Case Number: XYZ7890\nFiled on 04/25/2025")
      = (some (str "XYZ7890"), some (str "04/25/2025"))
    ∧ extract_id_judgement (str "Case Number: XYZ7890\nFiled on 04/25/2025")
      = some (str "XYZ7890") :=
  ⟨by decide, by decide⟩

/-! ## Claim C3 -/

/-- Claim C3, counterexample: when the single readtext call of
extract_id_dismissal fails with accelerator out-of-memory, exactly one OCR
invocation has been made, not the two that a caught-and-retried-once run
would make, and the call already terminates with an exception, so the page
is marked failed without any CPU retry. -/
theorem extract_id_dismissal_no_retry_cex :
    (extract_id_dismissal (Except.error PyErr.cudaOom)).calls = [OcrCall.gpuReader]
    ∧ (extract_id_dismissal (Except.error PyErr.cudaOom)).calls.length ≠ 2
    ∧ (extract_id_dismissal (Except.error PyErr.cudaOom)).result
        = Except.error PyErr.typeError :=
  ⟨rfl, by decide, rfl⟩

/-- Claim C3, amended: on any failure of its single OCR invocation,
extract_id_dismissal performs no retry at all: the invocation list is the
one module-level reader call, no CPU reader is ever invoked, and the except
handler itself raises TypeError through its None log path, so the page is
marked failed immediately. -/
theorem extract_id_dismissal_failure_no_retry (e : PyErr) :
    (extract_id_dismissal (Except.error e)).calls = [OcrCall.gpuReader]
    ∧ OcrCall.cpuReader ∉ (extract_id_dismissal (Except.error e)).calls
    ∧ (extract_id_dismissal (Except.error e)).result = Except.error PyErr.typeError := by
  refine ⟨rfl, ?_, rfl⟩
  show OcrCall.cpuReader ∉ [OcrCall.gpuReader]
  decide

/-! ## Claim C9 -/

/-- Claim C9: the three judgement extractors with the case_number in None
guard always terminate with an exception: with at least one OCR line the
guard raises TypeError, with no lines the index call on the empty line list
raises ValueError, and in both cases the except handler raises TypeError
again through its None log path, so every call fails and a page processed
under these profiles never receives an identifier-named output file. -/
theorem broken_judgement_extractors_always_raise (text : Str) :
    extract_va_judgements_lvnv text = Except.error PyErr.typeError
    ∧ extract_va_judgements_cava text = Except.error PyErr.typeError
    ∧ extract_judgements_mcm text = Except.error PyErr.typeError
    ∧ (pySplitlines text ≠ [] → vaBody text = Except.error PyErr.typeError)
    ∧ (pySplitlines text = [] → vaBody text = Except.error PyErr.valueError)
    ∧ ∀ (cfg : PdfCfg) (totalPages i : Nat) (st : VaSt),
        (vaPageStep cfg totalPages i (extract_va_judgements_lvnv text) st).fs = st.fs
        ∧ (vaPageStep cfg totalPages i (extract_va_judgements_lvnv text) st).recs = st.recs := by
  have hbody : ∀ t : Str, vaBody t = Except.error
      (if pySplitlines t = [] then PyErr.valueError else PyErr.typeError) := by
    intro t
    unfold vaBody
    cases hl : pySplitlines t with
    | nil => rfl
    | cons a as => rfl
  have hwrap : ∀ t : Str, vaWrap (vaBody t) = Except.error PyErr.typeError := by
    intro t
    rw [hbody t]
    rfl
  refine ⟨hwrap text, hwrap text, hwrap text, ?_, ?_, ?_⟩
  · intro h
    rw [hbody text]
    simp [h]
  · intro h
    rw [hbody text]
    simp [h]
  · intro cfg totalPages i st
    have hx : extract_va_judgements_lvnv text = Except.error PyErr.typeError := hwrap text
    rw [hx]
    constructor <;> simp [vaPageStep]

/-- Claim C9, witness: the body raises TypeError on a one-line page and
ValueError on an empty page. -/
theorem broken_judgement_extractors_always_raise_witness :
    vaBody (str "Case") = Except.error PyErr.typeError
    ∧ vaBody (str "") = Except.error PyErr.valueError :=
  ⟨(broken_judgement_extractors_always_raise (str "Case")).2.2.2.1 (by decide),
   (broken_judgement_extractors_always_raise (str "")).2.2.2.2.1 (by decide)⟩

/-! ## Claim C10 -/

/-- Claim C10: in the API process_pdf, a keyword that does not contain
fileno leaves the local extracted_id unassigned, so the page body raises
NameError; the per-page handler turns this into exactly one ERROR log
entry and the page produces no per-page log line, no output file and no
report record. -/
theorem api_process_pdf_missing_branch (cfg : PdfCfg) (i : Nat) (text : Str)
    (st : AppApi.ApiSt)
    (hk : containsSub (str "fileno") (pyToLower cfg.idKeyword) = false) :
    AppApi.pageBody cfg i text st = Except.error PyErr.nameError
    ∧ AppApi.pageStep cfg i (PageEvent.ocrText text) st =
        { st with log := st.log ++
            [logErrorEntry cfg.ts (str "process_pdf")
              [str "file-level error in " ++ cfg.pdfName ++ str ":", pyErrStr PyErr.nameError]] }
    ∧ (AppApi.pageStep cfg i (PageEvent.ocrText text) st).fs = st.fs
    ∧ (AppApi.pageStep cfg i (PageEvent.ocrText text) st).recs = st.recs := by
  have h1 : AppApi.pageBody cfg i text st = Except.error PyErr.nameError := by
    unfold AppApi.pageBody
    simp [hk]
  have h2 : AppApi.pageStep cfg i (PageEvent.ocrText text) st =
      { st with log := st.log ++
          [logErrorEntry cfg.ts (str "process_pdf")
            [str "file-level error in " ++ cfg.pdfName ++ str ":", pyErrStr PyErr.nameError]] } := by
    simp only [AppApi.pageStep, h1]
  refine ⟨h1, h2, ?_, ?_⟩ <;> rw [h2]

/-- Claim C10, witness: the page body raises NameError for the concrete
keyword case number. -/
theorem api_process_pdf_missing_branch_witness :
    AppApi.pageBody
        (PdfCfg.mk (str "case number") (str "doc1") (str "in/doc1.pdf") (str "out/doc1")
          (str "s") (str "t") (str "m") 0 1)
        0 (str "hello") (AppApi.ApiSt.mk [] [] [])
      = Except.error PyErr.nameError :=
  (api_process_pdf_missing_branch _ 0 (str "hello") (AppApi.ApiSt.mk [] [] [])
    (by decide)).1

/-! ## Claim C2 -/

/-- Claim C2, counterexample: a page that fails with a rasterization or OCR
error appends an ERROR log entry but no report record, so it is not true
that every processed page appends exactly one ExtractionResult record: a
one-page document whose page fails yields zero records, not one. -/
theorem page_error_no_record_cex :
    (process_pdf sampleCfg
        (DocEvent.opened [PageEvent.pageFail (str "rasterization error")]) emptySt).recs.length = 0
    ∧ (process_pdf sampleCfg
        (DocEvent.opened [PageEvent.pageFail (str "rasterization error")]) emptySt).log.length = 1
    ∧ (0 : Nat) ≠ 1 := by
  refine ⟨by decide, by decide, by decide⟩

/-- Claim C2, amended: every processed page appends exactly one log entry,
whatever its outcome; a page that completes the per-page body without an
exception appends exactly one report record, while a page failing with a
rasterization or OCR error appends its ERROR log entry but no record; over
a whole page loop the log grows by exactly the page count and the records
by exactly the number of non-failing pages. -/
theorem page_accounting_amended (cfg : PdfCfg) (totalPages i : Nat) (ev : PageEvent)
    (st : PdfSt) :
    (pdfPageStep cfg totalPages i ev st).log.length = st.log.length + 1
    ∧ (pdfPageStep cfg totalPages i ev st).recs.length
        = st.recs.length + (match ev with
            | PageEvent.ocrText _ => 1
            | PageEvent.pageFail _ => 0)
    ∧ (∀ (pages : List PageEvent) (i0 : Nat) (st0 : PdfSt),
        (processPdfLoop cfg totalPages i0 pages st0).log.length
          = st0.log.length + pages.length)
    ∧ (∀ (pages : List PageEvent) (i0 : Nat) (st0 : PdfSt),
        (processPdfLoop cfg totalPages i0 pages st0).recs.length
          = st0.recs.length + (pages.countP (fun e => match e with
              | PageEvent.ocrText _ => true
              | PageEvent.pageFail _ => false))) := by
  have hstep : ∀ (j : Nat) (e : PageEvent) (s : PdfSt),
      (pdfPageStep cfg totalPages j e s).log.length = s.log.length + 1
      ∧ (pdfPageStep cfg totalPages j e s).recs.length
          = s.recs.length + (match e with
              | PageEvent.ocrText _ => 1
              | PageEvent.pageFail _ => 0) := by
    intro j e s
    cases e with
    | pageFail msg => simp [pdfPageStep]
    | ocrText text =>
      simp only [pdfPageStep]
      split <;> simp
  refine ⟨(hstep i ev st).1, (hstep i ev st).2, ?_, ?_⟩
  · intro pages
    induction pages with
    | nil => intro i0 st0; simp [processPdfLoop]
    | cons e rest ih =>
      intro i0 st0
      rw [processPdfLoop, ih, (hstep i0 e st0).1]
      simp
      omega
  · intro pages
    induction pages with
    | nil => intro i0 st0; simp [processPdfLoop]
    | cons e rest ih =>
      intro i0 st0
      rw [processPdfLoop, ih, (hstep i0 e st0).2]
      cases e <;> simp [List.countP_cons] <;> omega

/-! ## Claim C7 -/

/-- Claim C7: a page whose OCR text has no line containing a keyword
variant of the lien profile yields no identifier from extract_id_lien; the
page writes no output file, its record is appended with a blank identifier
and blank file date, one log entry with the line stating that no ID was
extracted is appended, and that line is part of the entry. -/
theorem no_keyword_page_outcome (cfg : PdfCfg) (totalPages i : Nat) (text : Str)
    (st : PdfSt)
    (hk1 : containsSub (str "fileno") (pyToLower cfg.idKeyword) = false)
    (hk2 : containsSub (str "case number") (pyToLower cfg.idKeyword) = false)
    (hline : ∀ line ∈ pySplitlines text,
        containsSub (str "case no") (pyToLower line) = false
        ∧ containsSub (str "caseno") (pyToLower line) = false) :
    extract_id_lien text = none
    ∧ (pdfPageStep cfg totalPages i (PageEvent.ocrText text) st).fs = st.fs
    ∧ (pdfPageStep cfg totalPages i (PageEvent.ocrText text) st).recs
        = st.recs ++ [Rec4.mk [] cfg.startTime (str "") cfg.pdfPath]
    ∧ (pdfPageStep cfg totalPages i (PageEvent.ocrText text) st).log
        = st.log ++ [logTextEntry cfg.ts cfg.pdfName (i + 1) none none]
    ∧ str "No ID extracted on this page." ∈ logTextEntry cfg.ts cfg.pdfName (i + 1) none none := by
  have hnone : extract_id_lien text = none := by
    apply scanLines_eq_none
    intro l hl
    unfold lienLine
    simp [(hline l hl).1, (hline l hl).2]
  have hdisp : dispatchExtract cfg.idKeyword text = (none, str "") := by
    unfold dispatchExtract
    simp [hk1, hk2, hnone]
  have hstep : pdfPageStep cfg totalPages i (PageEvent.ocrText text) st =
      { st with
          log := st.log ++ [logTextEntry cfg.ts cfg.pdfName (i + 1) none none]
          recs := st.recs ++ [Rec4.mk [] cfg.startTime (str "") cfg.pdfPath]
          prog := st.prog ++ [progressValue cfg.index (i + 1) totalPages cfg.totalFiles] } := by
    simp only [pdfPageStep, hdisp]
    rfl
  refine ⟨hnone, ?_, ?_, ?_, ?_⟩
  · rw [hstep]
  · rw [hstep]
  · rw [hstep]
  · simp [logTextEntry, pyTruthy]

/-- Claim C7, witness: a concrete keyword-free page yields no identifier. -/
theorem no_keyword_page_outcome_witness : extract_id_lien (str "hello world") = none :=
  (no_keyword_page_outcome sampleCfg 1 0 (str "hello world") emptySt (by decide) (by decide)
    (by decide)).1

/-! ## Claim C4 -/

theorem candidate_injective (base ext : Str) : Function.Injective (candidate base ext) := by
  intro a b h
  unfold candidate at h
  rcases a with _ | a <;> rcases b with _ | b
  · rfl
  · exfalso
    simp only [if_pos, if_neg, Nat.succ_ne_zero, reduceIte] at h
    have := congrArg List.length h
    have hd := natToDigits_ne_nil (b + 1)
    have hdl : 0 < (natToDigits (b + 1)).length := List.length_pos.mpr hd
    simp [List.length_append, str] at this
    omega
  · exfalso
    simp only [if_pos, if_neg, Nat.succ_ne_zero, reduceIte] at h
    have := congrArg List.length h
    have hd := natToDigits_ne_nil (a + 1)
    have hdl : 0 < (natToDigits (a + 1)).length := List.length_pos.mpr hd
    simp [List.length_append, str] at this
    omega
  · simp only [Nat.succ_ne_zero, reduceIte] at h
    have h3 : natToDigits (a + 1) = natToDigits (b + 1) := by
      simpa [List.append_assoc] using h
    have := natToDigits_injective h3
    omega

theorem pyJoin_right_injective (dir : Str) :
    Function.Injective (fun n => pyJoin dir n) := by
  intro a b h
  unfold pyJoin at h
  simpa [List.append_assoc] using h

theorem exists_free_candidate (fs : List Str) (dir base ext : Str) (k : Nat) :
    ∃ j, k ≤ j ∧ j < k + (fs.length + 1) ∧ pyJoin dir (candidate base ext j) ∉ fs := by
  by_contra hcon
  push_neg at hcon
  have hinj : Function.Injective (fun j : Nat => pyJoin dir (candidate base ext j)) :=
    fun a b h => candidate_injective base ext (pyJoin_right_injective dir h)
  have hinj2 : Function.Injective (fun t : Nat => pyJoin dir (candidate base ext (k + t))) :=
    fun a b h => by
      have := hinj h
      omega
  have hsub : (Finset.range (fs.length + 1)).image
      (fun t => pyJoin dir (candidate base ext (k + t))) ⊆ fs.toFinset := by
    intro x hx
    rw [Finset.mem_image] at hx
    obtain ⟨t, ht, rfl⟩ := hx
    rw [Finset.mem_range] at ht
    rw [List.mem_toFinset]
    exact hcon (k + t) (by omega) (by omega)
  have hcard := Finset.card_le_card hsub
  rw [Finset.card_image_of_injective _ hinj2, Finset.card_range] at hcard
  have := List.toFinset_card_le (l := fs)
  omega

theorem gufLoop_eq_of_least (fs : List Str) (dir base ext : Str) :
    ∀ (fuel k j : Nat), k ≤ j → j < k + fuel →
      pyJoin dir (candidate base ext j) ∉ fs →
      (∀ m, k ≤ m → m < j → pyJoin dir (candidate base ext m) ∈ fs) →
      gufLoop fs dir base ext fuel k = pyJoin dir (candidate base ext j) := by
  intro fuel
  induction fuel with
  | zero => intro k j h1 h2; omega
  | succ fuel ih =>
    intro k j h1 h2 hfree hmin
    rw [gufLoop]
    by_cases hk : pyJoin dir (candidate base ext k) ∈ fs
    · rw [if_pos hk]
      have hkj : k ≠ j := fun he => hfree (he ▸ hk)
      exact ih (k + 1) j (by omega) (by omega) hfree
        (fun m hm1 hm2 => hmin m (by omega) hm2)
    · rw [if_neg hk]
      have : j = k := by
        by_contra hne
        exact hk (hmin k (le_refl k) (by omega))
      rw [this]

theorem get_unique_filename_least (fs : List Str) (dir base ext : Str) :
    ∃ j, get_unique_filename fs dir base ext = pyJoin dir (candidate base ext j)
      ∧ pyJoin dir (candidate base ext j) ∉ fs
      ∧ ∀ m, m < j → pyJoin dir (candidate base ext m) ∈ fs := by
  classical
  have hex : ∃ j, pyJoin dir (candidate base ext j) ∉ fs := by
    obtain ⟨j, _, _, hj⟩ := exists_free_candidate fs dir base ext 0
    exact ⟨j, hj⟩
  have hj0 : pyJoin dir (candidate base ext (Nat.find hex)) ∉ fs := Nat.find_spec hex
  have hmin : ∀ m, m < Nat.find hex → pyJoin dir (candidate base ext m) ∈ fs := by
    intro m hm
    have := Nat.find_min hex hm
    simpa using this
  have hbound : Nat.find hex < fs.length + 1 := by
    obtain ⟨j, _, hj2, hj3⟩ := exists_free_candidate fs dir base ext 0
    have : Nat.find hex ≤ j := Nat.find_min' hex hj3
    omega
  refine ⟨Nat.find hex, ?_, hj0, hmin⟩
  unfold get_unique_filename
  exact gufLoop_eq_of_least fs dir base ext (fs.length + 1) 0 (Nat.find hex) (Nat.zero_le _)
    (by omega) hj0 (fun m _ hm => hmin m hm)

theorem get_unique_filename_fresh (fs : List Str) (dir base ext : Str) :
    get_unique_filename fs dir base ext ∉ fs := by
  obtain ⟨j, hej, hfree, _⟩ := get_unique_filename_least fs dir base ext
  rw [hej]
  exact hfree

theorem reserveN_eq (dir base ext : Str) :
    ∀ n : Nat, reserveN dir base ext n
      = ((List.range n).map (fun k => pyJoin dir (candidate base ext k)),
         (List.range n).map (fun k => pyJoin dir (candidate base ext k))) := by
  intro n
  induction n with
  | zero => rfl
  | succ n ih =>
    rw [reserveN, ih]
    have hg : get_unique_filename
        ((List.range n).map (fun k => pyJoin dir (candidate base ext k))) dir base ext
        = pyJoin dir (candidate base ext n) := by
      unfold get_unique_filename
      apply gufLoop_eq_of_least
      · exact Nat.zero_le _
      · simp
      · intro hmem
        rw [List.mem_map] at hmem
        obtain ⟨m, hm, he⟩ := hmem
        have := candidate_injective base ext (pyJoin_right_injective dir he)
        rw [List.mem_range] at hm
        omega
      · intro m _ hm
        rw [List.mem_map]
        exact ⟨m, by simp [List.mem_range, hm], rfl⟩
    rw [hg]
    simp [List.range_succ]

/-- Claim C4: get_unique_filename returns the first candidate path among
base.ext, base_copy1.ext, base_copy2.ext and so on that does not exist; a
returned path never names an existing file; and for N successive requests
against an initially empty directory, writing each returned path before
the next request, the N paths are the first N candidates in order: pairwise
distinct, the first being base.ext unmodified and the k-th carrying the
copy suffix with counter k minus one, counters strictly increasing. -/
theorem get_unique_filename_correct (dir base ext : Str) (n : Nat) (hn : 1 ≤ n) :
    (reserveN dir base ext n).1
      = (List.range n).map (fun k => pyJoin dir (candidate base ext k))
    ∧ (reserveN dir base ext n).1.Nodup
    ∧ (reserveN dir base ext n).1.head? = some (pyJoin dir (base ++ ext))
    ∧ (∀ k, 1 ≤ k → k < n →
        (reserveN dir base ext n).1[k]? =
          some (pyJoin dir (base ++ str "_copy" ++ natToDigits k ++ ext)))
    ∧ (∀ fs : List Str, get_unique_filename fs dir base ext ∉ fs)
    ∧ (∀ fs : List Str, ∃ j,
        get_unique_filename fs dir base ext = pyJoin dir (candidate base ext j)
        ∧ pyJoin dir (candidate base ext j) ∉ fs
        ∧ ∀ m, m < j → pyJoin dir (candidate base ext m) ∈ fs) := by
  have hinj : Function.Injective (fun j : Nat => pyJoin dir (candidate base ext j)) :=
    fun a b h => candidate_injective base ext (pyJoin_right_injective dir h)
  have he := reserveN_eq dir base ext n
  refine ⟨by rw [he], ?_, ?_, ?_,
    fun fs => get_unique_filename_fresh fs dir base ext,
    fun fs => get_unique_filename_least fs dir base ext⟩
  · rw [he]
    exact List.Nodup.map hinj (List.nodup_range n)
  · rw [he]
    rcases n with _ | m
    · omega
    · rw [List.range_succ_eq_map]
      simp [candidate]
  · intro k hk1 hk2
    rw [he]
    rw [List.getElem?_map, List.getElem?_range hk2]
    have hc : candidate base ext k = base ++ str "_copy" ++ natToDigits k ++ ext := by
      unfold candidate
      rw [if_neg (by omega)]
    simp [hc]

/-- Claim C4, witness: three reservations of the same base name against an
initially empty directory. -/
theorem get_unique_filename_correct_witness :
    (reserveN (str "out") (str "ABC1") (str ".pdf") 3).1
      = (List.range 3).map (fun k => pyJoin (str "out") (candidate (str "ABC1") (str ".pdf") k)) :=
  (get_unique_filename_correct (str "out") (str "ABC1") (str ".pdf") 3 (by decide)).1


/-! ## Claim C5 -/

/-- Claim C5: a document whose PDF cannot be opened is handled by the outer
except of process_pdf, which records exactly one document-level ERROR entry
in the log and produces no records and no files; placed anywhere in a
batch, the failing document only adds that entry to the accumulated state
and the worker loop continues with every subsequent document in list
order. -/
theorem doc_failure_isolated (b : BatchCfg) (idx : Nat) (st : PdfSt)
    (l1 l2 : List DocJob) (j : DocJob) (msg : Str)
    (hj : j.doc = DocEvent.openFail msg) :
    runBatchAux b idx (l1 ++ j :: l2) st
      = runBatchAux b (idx + l1.length + 1) l2
          { runBatchAux b idx l1 st with
              log := (runBatchAux b idx l1 st).log
                ++ [logErrorEntry b.ts (str "process_pdf") [msg]] }
    ∧ (process_pdf (jobCfg b (idx + l1.length) j) j.doc (runBatchAux b idx l1 st)).recs
        = (runBatchAux b idx l1 st).recs
    ∧ (process_pdf (jobCfg b (idx + l1.length) j) j.doc (runBatchAux b idx l1 st)).fs
        = (runBatchAux b idx l1 st).fs
    ∧ (process_pdf (jobCfg b (idx + l1.length) j) j.doc (runBatchAux b idx l1 st)).log
        = (runBatchAux b idx l1 st).log ++ [logErrorEntry b.ts (str "process_pdf") [msg]] := by
  have hstep : ∀ (k : Nat) (s : PdfSt),
      process_pdf (jobCfg b k j) j.doc s
        = { s with log := s.log ++ [logErrorEntry b.ts (str "process_pdf") [msg]] } := by
    intro k s
    rw [hj]
    rfl
  refine ⟨?_, by rw [hstep], by rw [hstep], by rw [hstep]⟩
  induction l1 generalizing idx st with
  | nil =>
    simp only [List.nil_append, List.length_nil, Nat.add_zero, runBatchAux]
    rw [hstep idx st]
  | cons d l1 ih =>
    simp only [List.cons_append, List.length_cons, List.append_eq, runBatchAux]
    rw [ih (idx + 1) (process_pdf (jobCfg b idx d) d.doc st)]
    have harith : idx + 1 + l1.length + 1 = idx + (l1.length + 1) + 1 := by omega
    rw [harith]

/-- Claim C5, witness: a concrete one-document batch whose document fails
to open. -/
theorem doc_failure_isolated_witness :
    runBatchAux (BatchCfg.mk (str "caseno") (str "s0") (str "t0") 1) 0
        ([] ++ (DocJob.mk (str "bad") (str "in/bad.pdf") (str "out/bad") (str "m")
          (DocEvent.openFail (str "cannot open"))) :: []) emptySt
      = runBatchAux (BatchCfg.mk (str "caseno") (str "s0") (str "t0") 1)
          (0 + List.length ([] : List DocJob) + 1) []
          { runBatchAux (BatchCfg.mk (str "caseno") (str "s0") (str "t0") 1) 0 [] emptySt with
              log := (runBatchAux (BatchCfg.mk (str "caseno") (str "s0") (str "t0") 1) 0 [] emptySt).log
                ++ [logErrorEntry (str "t0") (str "process_pdf") [str "cannot open"]] } :=
  (doc_failure_isolated (BatchCfg.mk (str "caseno") (str "s0") (str "t0") 1) 0 emptySt [] []
    (DocJob.mk (str "bad") (str "in/bad.pdf") (str "out/bad") (str "m")
      (DocEvent.openFail (str "cannot open"))) (str "cannot open") rfl).1

/-! ## Claim C8 -/

theorem progressValue_pos (d ip1 tp tf : Nat) (hip : 0 < ip1) (htp : 0 < tp)
    (htf : 0 < tf) : 0 < progressValue d ip1 tp tf := by
  unfold progressValue
  have h1 : (0 : ℚ) < (ip1 : ℚ) := by exact_mod_cast hip
  have h2 : (0 : ℚ) < (tp : ℚ) := by exact_mod_cast htp
  have h3 : (0 : ℚ) < (tf : ℚ) := by exact_mod_cast htf
  have h4 : (0 : ℚ) ≤ (d : ℚ) := by positivity
  positivity

theorem progressValue_le_100 (d ip1 tp tf : Nat) (h1 : ip1 ≤ tp) (htp : 0 < tp)
    (hd : d < tf) : progressValue d ip1 tp tf ≤ 100 := by
  unfold progressValue
  have h2 : (0 : ℚ) < (tp : ℚ) := by exact_mod_cast htp
  have h3 : (0 : ℚ) < (tf : ℚ) := by exact_mod_cast (show 0 < tf by omega)
  have h4 : (ip1 : ℚ) / (tp : ℚ) ≤ 1 := by
    rw [div_le_one h2]
    exact_mod_cast h1
  have h5 : (d : ℚ) + 1 ≤ (tf : ℚ) := by exact_mod_cast hd
  have h6 : (d : ℚ) + (ip1 : ℚ) / (tp : ℚ) ≤ (tf : ℚ) := by linarith
  rw [div_mul_eq_mul_div, div_le_iff₀ h3]
  linarith

theorem progressValue_mono (d tp tf i : Nat) (htp : 0 < tp) (htf : 0 < tf) :
    progressValue d (i + 1) tp tf ≤ progressValue d (i + 2) tp tf := by
  unfold progressValue
  have h2 : (0 : ℚ) < (tp : ℚ) := by exact_mod_cast htp
  have h3 : (0 : ℚ) < (tf : ℚ) := by exact_mod_cast htf
  have h4 : ((i + 1 : Nat) : ℚ) / (tp : ℚ) ≤ ((i + 2 : Nat) : ℚ) / (tp : ℚ) := by
    rw [div_le_div_iff_of_pos_right h2]
    push_cast
    linarith
  have h5 : (d : ℚ) + ((i + 1 : Nat) : ℚ) / (tp : ℚ)
      ≤ (d : ℚ) + ((i + 2 : Nat) : ℚ) / (tp : ℚ) := by
    push_cast at h4 ⊢
    linarith
  apply mul_le_mul_of_nonneg_right ?_ (by norm_num)
  rw [div_le_div_iff₀ h3 h3]
  have := mul_le_mul_of_nonneg_right h5 (le_of_lt h3)
  linarith

theorem progressValue_boundary (d tp tp2 tf : Nat) (htp : 0 < tp) (htp2 : 0 < tp2)
    (htf : 0 < tf) : progressValue d tp tp tf ≤ progressValue (d + 1) 1 tp2 tf := by
  unfold progressValue
  have h1 : (0 : ℚ) < (tp : ℚ) := by exact_mod_cast htp
  have h2 : (0 : ℚ) < (tp2 : ℚ) := by exact_mod_cast htp2
  have h3 : (0 : ℚ) < (tf : ℚ) := by exact_mod_cast htf
  have e1 : (tp : ℚ) / (tp : ℚ) = 1 := div_self (ne_of_gt h1)
  rw [e1]
  have h4 : (0 : ℚ) ≤ (1 : ℚ) / (tp2 : ℚ) := by positivity
  have h5 : (d : ℚ) + 1 ≤ ((d + 1 : Nat) : ℚ) + (1 : ℚ) / (tp2 : ℚ) := by
    push_cast
    linarith
  apply mul_le_mul_of_nonneg_right ?_ (by norm_num)
  rw [div_le_div_iff₀ h3 h3]
  have := mul_le_mul_of_nonneg_right h5 (le_of_lt h3)
  linarith

theorem progressValue_final (tf tp : Nat) (htp : 0 < tp) (htf : 0 < tf) :
    progressValue (tf - 1) tp tp tf = 100 := by
  unfold progressValue
  have h1 : (0 : ℚ) < (tp : ℚ) := by exact_mod_cast htp
  have h3 : (0 : ℚ) < (tf : ℚ) := by exact_mod_cast htf
  have e1 : (tp : ℚ) / (tp : ℚ) = 1 := div_self (ne_of_gt h1)
  rw [e1]
  have e2 : ((tf - 1 : Nat) : ℚ) + 1 = (tf : ℚ) := by
    rw [Nat.cast_sub (by omega)]
    push_cast
    ring
  rw [e2, div_self (ne_of_gt h3), one_mul]

/-- Page count of a document event, zero when it fails to open. -/
def pageCount (j : DocJob) : Nat :=
  match j.doc with
  | DocEvent.opened ps => ps.length
  | DocEvent.openFail _ => 0

/-- The sequence of progress values a batch emits: for each document in
order, one value per page, given the page counts of the documents. -/
def runProg (tf : Nat) : Nat → List Nat → List ℚ
  | _, [] => []
  | d, tp :: rest =>
    (List.range tp).map (fun i => progressValue d (i + 1) tp tf) ++ runProg tf (d + 1) rest

theorem pdfPageStep_prog (cfg : PdfCfg) (tp i : Nat) (ev : PageEvent) (st : PdfSt) :
    (pdfPageStep cfg tp i ev st).prog
      = st.prog ++ [progressValue cfg.index (i + 1) tp cfg.totalFiles] := by
  cases ev with
  | pageFail msg => rfl
  | ocrText text =>
    simp only [pdfPageStep]
    split <;> rfl

theorem processPdfLoop_prog (cfg : PdfCfg) (tp : Nat) :
    ∀ (pages : List PageEvent) (i : Nat) (st : PdfSt),
      (processPdfLoop cfg tp i pages st).prog
        = st.prog ++ (List.range pages.length).map
            (fun d => progressValue cfg.index (i + 1 + d) tp cfg.totalFiles) := by
  intro pages
  induction pages with
  | nil => intro i st; simp [processPdfLoop]
  | cons e rest ih =>
    intro i st
    rw [processPdfLoop, ih, pdfPageStep_prog]
    rw [List.length_cons, List.range_succ_eq_map, List.map_cons, List.map_map]
    simp only [List.append_assoc, List.singleton_append, Nat.add_zero]
    congr 2
    apply List.map_congr_left
    intro d _
    simp only [Function.comp]
    congr 1
    omega

theorem runBatchAux_prog (b : BatchCfg) :
    ∀ (jobs : List DocJob) (idx : Nat) (st : PdfSt),
      (∀ j ∈ jobs, ∃ ps, j.doc = DocEvent.opened ps) →
      (runBatchAux b idx jobs st).prog
        = st.prog ++ runProg b.totalFiles idx (jobs.map pageCount) := by
  intro jobs
  induction jobs with
  | nil => intro idx st _; simp [runBatchAux, runProg]
  | cons j rest ih =>
    intro idx st hopen
    obtain ⟨ps, hps⟩ := hopen j (by simp)
    rw [runBatchAux, ih _ _ (fun x hx => hopen x (by simp [hx]))]
    have hpc : pageCount j = ps.length := by
      unfold pageCount
      rw [hps]
    rw [List.map_cons, hpc]
    have hpp : process_pdf (jobCfg b idx j) j.doc st
        = processPdfLoop (jobCfg b idx j) ps.length 0 ps st := by
      rw [hps]
      rfl
    rw [hpp, runProg]
    rw [processPdfLoop_prog]
    simp only [List.append_assoc]
    congr 2
    apply List.map_congr_left
    intro d _
    show progressValue idx (0 + 1 + d) ps.length b.totalFiles
      = progressValue idx (d + 1) ps.length b.totalFiles
    congr 1
    omega

theorem runProg_bounds (tf : Nat) :
    ∀ (tps : List Nat) (d : Nat), d + tps.length ≤ tf → (∀ tp ∈ tps, 0 < tp) →
      ∀ q ∈ runProg tf d tps, 0 < q ∧ q ≤ 100 := by
  intro tps
  induction tps with
  | nil => intro d _ _ q hq; simp [runProg] at hq
  | cons tp rest ih =>
    intro d hlen hpos q hq
    rw [runProg, List.mem_append] at hq
    rcases hq with hq | hq
    · rw [List.mem_map] at hq
      obtain ⟨i, hi, rfl⟩ := hq
      rw [List.mem_range] at hi
      have htp : 0 < tp := hpos tp (by simp)
      have hd : d < tf := by
        simp only [List.length_cons] at hlen
        omega
      exact ⟨progressValue_pos d (i + 1) tp tf (by omega) htp (by omega),
        progressValue_le_100 d (i + 1) tp tf (by omega) htp hd⟩
    · exact ih (d + 1) (by simp only [List.length_cons] at hlen; omega)
        (fun x hx => hpos x (by simp [hx])) q hq

theorem runProg_head (tf d tp : Nat) (rest : List Nat) (htp : 0 < tp) :
    (runProg tf d (tp :: rest)).head? = some (progressValue d 1 tp tf) := by
  rw [runProg]
  rcases tp with _ | m
  · omega
  · rw [List.range_succ_eq_map]
    simp

theorem block_getLast (tf d tp : Nat) (htp : 0 < tp) :
    ((List.range tp).map (fun i => progressValue d (i + 1) tp tf)).getLast?
      = some (progressValue d tp tp tf) := by
  rcases tp with _ | m
  · omega
  · rw [List.range_succ, List.map_append]
    simp

theorem runProg_ne_nil (tf d tp : Nat) (rest : List Nat) (htp : 0 < tp) :
    runProg tf d (tp :: rest) ≠ [] := by
  apply List.length_pos.mp
  rw [runProg, List.length_append, List.length_map, List.length_range]
  omega

theorem runProg_chain (tf : Nat) (htf : 0 < tf) :
    ∀ (tps : List Nat) (d : Nat), (∀ tp ∈ tps, 0 < tp) →
      List.Chain' (· ≤ ·) (runProg tf d tps) := by
  intro tps
  induction tps with
  | nil => intro d _; simp [runProg]
  | cons tp rest ih =>
    intro d hpos
    rw [runProg, List.chain'_append]
    refine ⟨?_, ih (d + 1) (fun x hx => hpos x (by simp [hx])), ?_⟩
    · rw [List.chain'_map]
      rcases tp with _ | m
      · simp
      · rw [List.chain'_range_succ]
        intro i hi
        exact progressValue_mono d (m + 1) tf i (by omega) htf
    · intro x hx y hy
      rcases rest with _ | ⟨tp2, rest2⟩
      · simp [runProg] at hy
      · have htp2 : 0 < tp2 := hpos tp2 (by simp)
        rw [runProg_head tf (d + 1) tp2 rest2 htp2] at hy
        have htp : 0 < tp := hpos tp (by simp)
        rw [block_getLast tf d tp htp] at hx
        simp only [Option.mem_def, Option.some_inj] at hx hy
        rw [← hx, ← hy]
        exact progressValue_boundary d tp tp2 tf htp htp2 htf

theorem runProg_getLast (tf : Nat) (htf : 0 < tf) :
    ∀ (tps : List Nat) (d : Nat), tps ≠ [] → (∀ tp ∈ tps, 0 < tp) →
      d + tps.length = tf → (runProg tf d tps).getLast? = some 100 := by
  intro tps
  induction tps with
  | nil => intro d h; exact absurd rfl h
  | cons tp rest ih =>
    intro d _ hpos hlen
    rw [runProg]
    rcases rest with _ | ⟨tp2, rest2⟩
    · simp only [runProg, List.append_nil]
      have htp : 0 < tp := hpos tp (by simp)
      rw [block_getLast tf d tp htp]
      have hd : d = tf - 1 := by
        simp only [List.length_cons, List.length_nil] at hlen
        omega
      rw [hd, progressValue_final tf tp htp htf]
    · rw [List.getLast?_append_of_ne_nil _
        (runProg_ne_nil tf (d + 1) tp2 rest2 (hpos tp2 (by simp)))]
      exact ih (d + 1) (by simp) (fun x hx => hpos x (by simp [hx]))
        (by simp only [List.length_cons] at hlen ⊢; omega)

/-- Claim C8: for a batch of opened documents with at least one page each,
the progress values emitted by the batch are exactly the values of the
source formula, document index plus completed page fraction over the
document count times one hundred, in page order; every emitted value is
strictly positive and at most one hundred, the sequence is nondecreasing
across successive pages of the run, and the value after the last page of
the last document is exactly one hundred. -/
theorem progress_callback_values (b : BatchCfg) (jobs : List DocJob) (st : PdfSt)
    (hlen : b.totalFiles = jobs.length)
    (hne : jobs ≠ [])
    (hopen : ∀ j ∈ jobs, ∃ ps, j.doc = DocEvent.opened ps ∧ 0 < ps.length)
    (hst : st.prog = []) :
    (runBatchAux b 0 jobs st).prog = runProg b.totalFiles 0 (jobs.map pageCount)
    ∧ (∀ q ∈ (runBatchAux b 0 jobs st).prog, 0 < q ∧ q ≤ 100)
    ∧ List.Chain' (· ≤ ·) ((runBatchAux b 0 jobs st).prog)
    ∧ ((runBatchAux b 0 jobs st).prog).getLast? = some 100 := by
  have hopen2 : ∀ j ∈ jobs, ∃ ps, j.doc = DocEvent.opened ps :=
    fun j hj => (hopen j hj).imp (fun ps h => h.1)
  have hprog : (runBatchAux b 0 jobs st).prog
      = runProg b.totalFiles 0 (jobs.map pageCount) := by
    rw [runBatchAux_prog b jobs 0 st hopen2, hst, List.nil_append]
  have hpos : ∀ tp ∈ jobs.map pageCount, 0 < tp := by
    intro tp htp
    rw [List.mem_map] at htp
    obtain ⟨j, hj, rfl⟩ := htp
    obtain ⟨ps, hps, hlen2⟩ := hopen j hj
    unfold pageCount
    rw [hps]
    exact hlen2
  have htf : 0 < b.totalFiles := by
    rw [hlen]
    exact List.length_pos.mpr hne
  refine ⟨hprog, ?_, ?_, ?_⟩
  · rw [hprog]
    exact runProg_bounds b.totalFiles (jobs.map pageCount) 0
      (by rw [List.length_map]; omega) hpos
  · rw [hprog]
    exact runProg_chain b.totalFiles htf (jobs.map pageCount) 0 hpos
  · rw [hprog]
    exact runProg_getLast b.totalFiles htf (jobs.map pageCount) 0
      (by simpa using hne) hpos (by rw [List.length_map]; omega)

/-- Claim C8, witness: a concrete two-document batch reaches exactly one
hundred after its last page. -/
theorem progress_callback_values_witness :
    ((runBatchAux (BatchCfg.mk (str "caseno") (str "s0") (str "t0") 2) 0
        [DocJob.mk (str "a") (str "in/a.pdf") (str "out/a") (str "m")
           (DocEvent.opened [PageEvent.ocrText (str "hello")]),
         DocJob.mk (str "b") (str "in/b.pdf") (str "out/b") (str "m")
           (DocEvent.opened [PageEvent.pageFail (str "x"),
             PageEvent.ocrText (str "Case No: Z9")])]
        emptySt).prog).getLast? = some 100 :=
  (progress_callback_values (BatchCfg.mk (str "caseno") (str "s0") (str "t0") 2)
    [DocJob.mk (str "a") (str "in/a.pdf") (str "out/a") (str "m")
       (DocEvent.opened [PageEvent.ocrText (str "hello")]),
     DocJob.mk (str "b") (str "in/b.pdf") (str "out/b") (str "m")
       (DocEvent.opened [PageEvent.pageFail (str "x"),
         PageEvent.ocrText (str "Case No: Z9")])]
    emptySt rfl (List.cons_ne_nil _ _)
    (by
      intro j hj
      simp only [List.mem_cons, List.not_mem_nil, or_false] at hj
      rcases hj with rfl | rfl
      · exact ⟨_, rfl, by decide⟩
      · exact ⟨_, rfl, by decide⟩)
    rfl).2.2.2
